import Mathlib

/-!
Verification development for a small Guarded Command Language analyzer
(`src/app.py`): a regex-driven lexer (`lex` over `TOKEN_SPECS`) and a
recursive-descent parser (`Parser` methods, `parse_tokens`).

The Python lexer scans left-to-right with a master regex built from the
ordered alternation `TOKEN_SPECS`; the first alternative that matches at the
current position wins.  Word-boundary assertions `\b` look at the character
just before the scan position, so the scanner here threads that previous
character explicitly.  The parser is embedded with explicit state passing
(token list + cursor position) and a recursion budget (`fuel`); Python
exceptions become `Except` error values.
-/

namespace GCL

/-! ## Character classes (ASCII fragment of the regex classes used) -/

def isDigitChar (c : Char) : Bool := 48 ≤ c.toNat && c.toNat ≤ 57

def isAlphaChar (c : Char) : Bool :=
  (65 ≤ c.toNat && c.toNat ≤ 90) || (97 ≤ c.toNat && c.toNat ≤ 122)

/-- Word characters as used by the `\b` assertions and `[A-Za-z0-9_]`. -/
def isWordChar (c : Char) : Bool := isAlphaChar c || isDigitChar c || c == '_'

/-- First character of `IDENT`: `[A-Za-z_]`. -/
def isIdentStart (c : Char) : Bool := isAlphaChar c || c == '_'

/-- Characters of the `WHITESPACE` class `[ \t\r]`. -/
def isSpaceChar (c : Char) : Bool := c == ' ' || c == '\t' || c == '\r'

/-! ## Token kinds and tokens -/

/-- The `TOKEN_SPECS` kind names, plus the `ERROR` kind that `lex` emits for
`UNKNOWN` matches and the `EOF` sentinel used by the parser. -/
inductive TokKind where
  | COMMENT | NEWLINE | WHITESPACE | ARROW | ASSIGN | OP
  | LPAREN | RPAREN | SEMI | BAR | KEYWORD | NUMBER | IDENT | UNKNOWN
  | ERROR | EOF
deriving DecidableEq, Repr

/-- The kind-name strings used in Python token dicts and error messages. -/
def kindName : TokKind → String
  | .COMMENT => "COMMENT" | .NEWLINE => "NEWLINE" | .WHITESPACE => "WHITESPACE"
  | .ARROW => "ARROW" | .ASSIGN => "ASSIGN" | .OP => "OP"
  | .LPAREN => "LPAREN" | .RPAREN => "RPAREN" | .SEMI => "SEMI" | .BAR => "BAR"
  | .KEYWORD => "KEYWORD" | .NUMBER => "NUMBER" | .IDENT => "IDENT"
  | .UNKNOWN => "UNKNOWN" | .ERROR => "ERROR" | .EOF => "EOF"

/-- A token dict `{type, value, line, col, index}`.  The Python `EOF`
sentinel dict carries no `index` key (it is never read); here it gets 0. -/
structure Token where
  type : TokKind
  value : String
  line : Int
  col : Int
  index : Nat
deriving DecidableEq, Repr

/-- The sentinel `{"type": "EOF", "value": "", "line": -1, "col": -1}`. -/
def eof_token : Token := { type := .EOF, value := "", line := -1, col := -1, index := 0 }

/-! ## The ordered matchers of `TOKEN_SPECS`

Each matcher takes the unscanned suffix of the source (and, where the
pattern uses `\b`, the character just before the scan position) and returns
the matched text, or `none`.  Regex alternation in Python picks the first
alternative that matches, which `firstMatch` below reproduces. -/

/-- `COMMENT`: `//[^\n]*` (greedy up to, not including, the newline). -/
def matchComment : List Char → Option (List Char)
  | c1 :: c2 :: rest =>
    if c1 = '/' ∧ c2 = '/' then some (c1 :: c2 :: rest.takeWhile (fun c => c != '\n'))
    else none
  | _ => none

/-- A single literal character (`NEWLINE`, `LPAREN`, `RPAREN`, `SEMI`, `BAR`). -/
def matchChar (a : Char) : List Char → Option (List Char)
  | c :: _ => if c = a then some [a] else none
  | [] => none

/-- `WHITESPACE`: `[ \t\r]+` (greedy run). -/
def matchWhitespace : List Char → Option (List Char)
  | [] => none
  | c :: rest =>
    if isSpaceChar c then some ((c :: rest).takeWhile isSpaceChar) else none

/-- A two-character literal (`ARROW` `->`, `ASSIGN` `:=`). -/
def matchPair (a b : Char) : List Char → Option (List Char)
  | c1 :: c2 :: _ => if c1 = a ∧ c2 = b then some [a, b] else none
  | _ => none

def op_doubles : List (Char × Char) := [('=', '='), ('<', '='), ('>', '='), ('!', '=')]

def op_singles : List Char := ['+', '-', '*', '/', '<', '>']

/-- `OP`: `==|<=|>=|!=|[+\-*/<>]` — the two-character alternatives are tried
before the single-character class. -/
def matchOP : List Char → Option (List Char)
  | [] => none
  | [c] => if c ∈ op_singles then some [c] else none
  | c1 :: c2 :: _ =>
    if (c1, c2) ∈ op_doubles then some [c1, c2]
    else if c1 ∈ op_singles then some [c1] else none

def keywords : List (List Char) :=
  [['i', 'f'], ['t', 'h', 'e', 'n'], ['e', 'l', 's', 'e'],
   ['f', 'i'], ['d', 'o'], ['o', 'd']]

def starts_with : List Char → List Char → Bool
  | [], _ => true
  | _ :: _, [] => false
  | p :: ps, c :: cs => p == c && starts_with ps cs

/-- `\b` on the left of the match: the scan position is a word boundary when
there is no previous character or the previous character is not a word
character (the patterns guarded by `\b` start with a word character). -/
def boundary_before (prev : Option Char) : Bool :=
  match prev with
  | none => true
  | some c => !isWordChar c

/-- `\b` after `n` consumed characters: end of input or a non-word character
(the guarded patterns end in a word character). -/
def boundary_after (s : List Char) (n : Nat) : Bool :=
  match s.drop n with
  | [] => true
  | c :: _ => !isWordChar c

/-- `KEYWORD`: `\b(if|then|else|fi|do|od)\b`, alternatives in declaration order. -/
def matchKeyword (prev : Option Char) (s : List Char) : Option (List Char) :=
  if boundary_before prev then
    keywords.find? (fun kw => starts_with kw s && boundary_after s kw.length)
  else none

/-- `NUMBER`: `\b\d+\b`.  The greedy digit run can only satisfy the trailing
`\b` at its maximal extent (shorter runs are followed by a digit), so the
match succeeds exactly when the maximal run is non-empty and followed by a
word boundary. -/
def matchNumber (prev : Option Char) (s : List Char) : Option (List Char) :=
  if boundary_before prev then
    if (s.takeWhile isDigitChar).isEmpty then none
    else if boundary_after s (s.takeWhile isDigitChar).length then
      some (s.takeWhile isDigitChar)
    else none
  else none

/-- `IDENT`: `[A-Za-z_][A-Za-z0-9_]*`. -/
def matchIdent : List Char → Option (List Char)
  | c :: rest =>
    if isIdentStart c then some (c :: rest.takeWhile isWordChar) else none
  | [] => none

/-- `UNKNOWN`: `.` — any single character except a newline. -/
def matchUnknown : List Char → Option (List Char)
  | c :: _ => if c = '\n' then none else some [c]
  | [] => none

/-- The ordered alternation of `TOKEN_SPECS`, evaluated at one scan position. -/
def TOKEN_SPECS (prev : Option Char) (s : List Char) :
    List (TokKind × Option (List Char)) :=
  [(.COMMENT, matchComment s),
   (.NEWLINE, matchChar '\n' s),
   (.WHITESPACE, matchWhitespace s),
   (.ARROW, matchPair '-' '>' s),
   (.ASSIGN, matchPair ':' '=' s),
   (.OP, matchOP s),
   (.LPAREN, matchChar '(' s),
   (.RPAREN, matchChar ')' s),
   (.SEMI, matchChar ';' s),
   (.BAR, matchChar '|' s),
   (.KEYWORD, matchKeyword prev s),
   (.NUMBER, matchNumber prev s),
   (.IDENT, matchIdent s),
   (.UNKNOWN, matchUnknown s)]

/-- First alternative that matched, as in regex alternation. -/
def firstMatch : List (TokKind × Option (List Char)) → Option (TokKind × List Char)
  | [] => none
  | (k, o) :: rest =>
    match o with
    | some v => some (k, v)
    | none => firstMatch rest

/-- `master_regex.match(code, pos)`: the first `TOKEN_SPECS` pattern matching
at the scan position (`prev` is the character at `pos - 1`, for `\b`). -/
def matchAt (prev : Option Char) (s : List Char) : Option (TokKind × List Char) :=
  firstMatch (TOKEN_SPECS prev s)

/-! ## The scan loop of `lex` -/

/-- The `while pos < length` loop of `lex`.  Returns the emitted tokens
together with the unscanned remainder (empty iff the scan reached the end).
`fuel` bounds the number of iterations; each iteration consumes at least one
character, so `s.length` iterations always suffice (proved below). -/
def lexGo : Nat → Option Char → List Char → Int → Int → Nat → List Token × List Char
  | 0, _, s, _, _, _ => ([], s)
  | fuel + 1, prev, s, line, col, pos =>
    match s with
    | [] => ([], [])
    | c :: rest =>
      match matchAt prev (c :: rest) with
      | none =>
        -- Python fallback `if not m`: emit an ERROR token for one character
        let r := lexGo fuel (some c) rest line (col + 1) (pos + 1)
        ({ type := .ERROR, value := String.mk [c], line := line, col := col,
           index := pos } :: r.1, r.2)
      | some (kind, v) =>
        if kind = .NEWLINE then
          lexGo fuel v.getLast? ((c :: rest).drop v.length) (line + 1) 1 (pos + v.length)
        else if kind = .WHITESPACE ∨ kind = .COMMENT then
          lexGo fuel v.getLast? ((c :: rest).drop v.length) line
            (col + (v.length : Int)) (pos + v.length)
        else if kind = .UNKNOWN then
          let r := lexGo fuel v.getLast? ((c :: rest).drop v.length) line
            (col + (v.length : Int)) (pos + v.length)
          ({ type := .ERROR, value := String.mk v, line := line, col := col,
             index := pos } :: r.1, r.2)
        else
          let r := lexGo fuel v.getLast? ((c :: rest).drop v.length) line
            (col + (v.length : Int)) (pos + v.length)
          ({ type := kind, value := String.mk v, line := line, col := col,
             index := pos } :: r.1, r.2)

/-- Whole-source scan: start at line 1, column 1, offset 0, no previous
character, with enough fuel for the whole input. -/
def lex_scan (code : String) : List Token × List Char :=
  lexGo code.data.length none code.data 1 1 0

/-- `lex(code)`: the emitted token list. -/
def lex (code : String) : List Token := (lex_scan code).1

/-! ## AST nodes

The Python parser builds dicts tagged by a `"node"` key:
`Program`, `If`, `Do`, `Guard`, `Assign`, `BinaryOp`, `Number`, `Ident`. -/

inductive Expr where
  | BinaryOp : String → Expr → Expr → Expr
  | Number : Nat → Expr
  | Ident : String → Expr
deriving DecidableEq, Repr

mutual
inductive Stmt where
  | If : List GuardNode → Stmt
  | Do : List GuardNode → Stmt
  | Assign : String → Expr → Stmt
inductive GuardNode where
  | mk : Expr → List Stmt → GuardNode
end

def GuardNode.cond : GuardNode → Expr
  | .mk c _ => c

def GuardNode.body : GuardNode → List Stmt
  | .mk _ b => b

structure Program where
  body : List Stmt

/-! Well-formedness used by the guard invariant: every `If`/`Do` node in a
statement tree carries at least one guard. -/

mutual
def stmtWF : Stmt → Bool
  | .If gs => !gs.isEmpty && guardsWF gs
  | .Do gs => !gs.isEmpty && guardsWF gs
  | .Assign _ _ => true
def guardsWF : List GuardNode → Bool
  | [] => true
  | g :: gs => guardWF g && guardsWF gs
def guardWF : GuardNode → Bool
  | .mk _ body => stmtsWF body
def stmtsWF : List Stmt → Bool
  | [] => true
  | s :: ss => stmtWF s && stmtsWF ss
end

/-- Models Python `int()` on the digit-only strings that the `NUMBER`
pattern produces. -/
def natOfDigits (s : String) : Nat :=
  s.data.foldl (fun acc c => acc * 10 + (c.toNat - 48)) 0

/-! ## ParseError and the token cursor -/

/-- `ParseError(msg, token=None)`. -/
structure ParseErr where
  msg : String
  token : Option Token
deriving DecidableEq, Repr

/-- `Parser.peek`: the token at the cursor, or the `EOF` sentinel past the end. -/
def peek (tokens : List Token) (pos : Nat) : Token :=
  match tokens[pos]? with
  | some t => t
  | none => eof_token

/-- Second half of `Parser.consume`: the `expected_value` check and the
position increment.  Python tests `if expected_value and ...`, so an empty
expected value is falsy and disables the check. -/
def consume_check_value (pos : Nat) (expected_value : Option String) (tok : Token) :
    Except ParseErr Token × Nat :=
  match expected_value with
  | some v =>
    if v ≠ "" ∧ tok.value ≠ v then
      (.error ⟨"Expected token value " ++ v ++ " but found " ++ tok.value, some tok⟩, pos)
    else (.ok tok, pos + 1)
  | none => (.ok tok, pos + 1)

/-- `Parser.consume(expected_type, expected_value)`.  The pair's second
component is the cursor position after the call: unchanged when the call
raises (Python raises before `self.pos += 1`), advanced by one on success. -/
def consume (tokens : List Token) (pos : Nat) (expected_type : Option TokKind)
    (expected_value : Option String) : Except ParseErr Token × Nat :=
  let tok := peek tokens pos
  match expected_type with
  | some et =>
    if tok.type ≠ et then
      (.error ⟨"Expected token type " ++ kindName et ++ " but found " ++
               kindName tok.type ++ " (\x27" ++ tok.value ++ "\x27)", some tok⟩, pos)
    else consume_check_value pos expected_value tok
  | none => consume_check_value pos expected_value tok

/-! ## Recursive-descent parser

Each Python method becomes a function over (tokens, cursor position); the
`while` loops become the `_rest` helpers.  `fuel` is a recursion budget
(strictly decreasing on every call); the Python recursion depth is bounded
by the input, so a large enough budget reproduces its behavior. -/

/-- Error used when the recursion budget runs out (no Python counterpart;
the budget chosen in `parse_tokens` is never exhausted on real inputs). -/
def fuel_err : ParseErr := ⟨"recursion budget exhausted", none⟩

/-- The optional-semicolon step of `parse_stmt_list`:
`if self.peek()["type"] == "SEMI": self.consume("SEMI")`. -/
def skip_optional_semi (tokens : List Token) (pos : Nat) : Except ParseErr Nat :=
  if (peek tokens pos).type = .SEMI then
    match consume tokens pos (some .SEMI) none with
    | (.error e, _) => .error e
    | (.ok _, p) => .ok p
  else .ok pos

mutual

/-- `Parser.parse_stmt_list`: loop until EOF / `fi` / `od` / a token that is
neither a `KEYWORD` nor an `IDENT`. -/
def parse_stmt_list : Nat → List Token → Nat → Except ParseErr (List Stmt × Nat)
  | 0, _, _ => .error fuel_err
  | fuel + 1, tokens, pos =>
    let tok := peek tokens pos
    if tok.type = .EOF then .ok ([], pos)
    else if tok.type = .KEYWORD ∧ (tok.value = "fi" ∨ tok.value = "od") then .ok ([], pos)
    else if tok.type ≠ .KEYWORD ∧ tok.type ≠ .IDENT then .ok ([], pos)
    else
      match parse_stmt fuel tokens pos with
      | .error e => .error e
      | .ok (stmt, pos1) =>
        match skip_optional_semi tokens pos1 with
        | .error e => .error e
        | .ok pos2 =>
          match parse_stmt_list fuel tokens pos2 with
          | .error e => .error e
          | .ok (rest, pos3) => .ok (stmt :: rest, pos3)
termination_by structural n _ _ => n

/-- `Parser.parse_stmt`. -/
def parse_stmt : Nat → List Token → Nat → Except ParseErr (Stmt × Nat)
  | 0, _, _ => .error fuel_err
  | fuel + 1, tokens, pos =>
    let tok := peek tokens pos
    if tok.type = .KEYWORD ∧ tok.value = "if" then parse_if fuel tokens pos
    else if tok.type = .KEYWORD ∧ tok.value = "do" then parse_do fuel tokens pos
    else if tok.type = .IDENT then parse_assignment fuel tokens pos
    else .error ⟨"Unexpected token in statement: " ++ kindName tok.type ++
                 " \x27" ++ tok.value ++ "\x27", some tok⟩
termination_by structural n _ _ => n

/-- `Parser.parse_if`. -/
def parse_if : Nat → List Token → Nat → Except ParseErr (Stmt × Nat)
  | 0, _, _ => .error fuel_err
  | fuel + 1, tokens, pos =>
    match consume tokens pos (some .KEYWORD) (some "if") with
    | (.error e, _) => .error e
    | (.ok _, pos1) =>
      match parse_guard_list fuel tokens pos1 with
      | .error e => .error e
      | .ok (guards, pos2) =>
        let tok := peek tokens pos2
        if tok.type = .KEYWORD ∧ tok.value = "fi" then
          match consume tokens pos2 (some .KEYWORD) (some "fi") with
          | (.error e, _) => .error e
          | (.ok _, pos3) => .ok (.If guards, pos3)
        else .error ⟨"Expected \x27fi\x27 to close \x27if\x27", some tok⟩
termination_by structural n _ _ => n

/-- `Parser.parse_do`. -/
def parse_do : Nat → List Token → Nat → Except ParseErr (Stmt × Nat)
  | 0, _, _ => .error fuel_err
  | fuel + 1, tokens, pos =>
    match consume tokens pos (some .KEYWORD) (some "do") with
    | (.error e, _) => .error e
    | (.ok _, pos1) =>
      match parse_guard_list fuel tokens pos1 with
      | .error e => .error e
      | .ok (guards, pos2) =>
        let tok := peek tokens pos2
        if tok.type = .KEYWORD ∧ tok.value = "od" then
          match consume tokens pos2 (some .KEYWORD) (some "od") with
          | (.error e, _) => .error e
          | (.ok _, pos3) => .ok (.Do guards, pos3)
        else .error ⟨"Expected \x27od\x27 to close \x27do\x27", some tok⟩
termination_by structural n _ _ => n

/-- `Parser.parse_guard_list`: one guard, then `('|' guard)*`. -/
def parse_guard_list : Nat → List Token → Nat → Except ParseErr (List GuardNode × Nat)
  | 0, _, _ => .error fuel_err
  | fuel + 1, tokens, pos =>
    match parse_guard fuel tokens pos with
    | .error e => .error e
    | .ok (g, pos1) =>
      match parse_guard_list_rest fuel tokens pos1 with
      | .error e => .error e
      | .ok (gs, pos2) => .ok (g :: gs, pos2)
termination_by structural n _ _ => n

/-- The `while self.peek()["type"] == "BAR"` loop of `parse_guard_list`. -/
def parse_guard_list_rest : Nat → List Token → Nat → Except ParseErr (List GuardNode × Nat)
  | 0, _, _ => .error fuel_err
  | fuel + 1, tokens, pos =>
    if (peek tokens pos).type = .BAR then
      match consume tokens pos (some .BAR) none with
      | (.error e, _) => .error e
      | (.ok _, pos1) =>
        match parse_guard fuel tokens pos1 with
        | .error e => .error e
        | .ok (g, pos2) =>
          match parse_guard_list_rest fuel tokens pos2 with
          | .error e => .error e
          | .ok (gs, pos3) => .ok (g :: gs, pos3)
    else .ok ([], pos)
termination_by structural n _ _ => n

/-- `Parser.parse_guard`: `expr '->' stmt_list`. -/
def parse_guard : Nat → List Token → Nat → Except ParseErr (GuardNode × Nat)
  | 0, _, _ => .error fuel_err
  | fuel + 1, tokens, pos =>
    match parse_expr fuel tokens pos with
    | .error e => .error e
    | .ok (cond, pos1) =>
      let tok := peek tokens pos1
      if tok.type = .ARROW then
        match consume tokens pos1 (some .ARROW) none with
        | (.error e, _) => .error e
        | (.ok _, pos2) =>
          match parse_stmt_list fuel tokens pos2 with
          | .error e => .error e
          | .ok (body, pos3) => .ok (⟨cond, body⟩, pos3)
      else .error ⟨"Expected \x27->\x27 in guard", some tok⟩
termination_by structural n _ _ => n

/-- `Parser.parse_assignment`: `IDENT ':=' expr`. -/
def parse_assignment : Nat → List Token → Nat → Except ParseErr (Stmt × Nat)
  | 0, _, _ => .error fuel_err
  | fuel + 1, tokens, pos =>
    match consume tokens pos (some .IDENT) none with
    | (.error e, _) => .error e
    | (.ok ident, pos1) =>
      if (peek tokens pos1).type = .ASSIGN then
        match consume tokens pos1 (some .ASSIGN) none with
        | (.error e, _) => .error e
        | (.ok _, pos2) =>
          match parse_expr fuel tokens pos2 with
          | .error e => .error e
          | .ok (expr, pos3) => .ok (.Assign ident.value expr, pos3)
      else .error ⟨"Expected \x27:=\x27 in assignment", some (peek tokens pos1)⟩

/-- `Parser.parse_expr`. -/
def parse_expr : Nat → List Token → Nat → Except ParseErr (Expr × Nat)
  | 0, _, _ => .error fuel_err
  | fuel + 1, tokens, pos => parse_equality fuel tokens pos

/-- `Parser.parse_equality`. -/
def parse_equality : Nat → List Token → Nat → Except ParseErr (Expr × Nat)
  | 0, _, _ => .error fuel_err
  | fuel + 1, tokens, pos =>
    match parse_relational fuel tokens pos with
    | .error e => .error e
    | .ok (left, pos1) => parse_equality_rest fuel tokens pos1 left
termination_by structural n _ _ => n

/-- The `('=='|'!=')` loop of `parse_equality`. -/
def parse_equality_rest : Nat → List Token → Nat → Expr → Except ParseErr (Expr × Nat)
  | 0, _, _, _ => .error fuel_err
  | fuel + 1, tokens, pos, left =>
    let t := peek tokens pos
    if t.type = .OP ∧ (t.value = "==" ∨ t.value = "!=") then
      match consume tokens pos (some .OP) none with
      | (.error e, _) => .error e
      | (.ok op, pos1) =>
        match parse_relational fuel tokens pos1 with
        | .error e => .error e
        | .ok (right, pos2) =>
          parse_equality_rest fuel tokens pos2 (.BinaryOp op.value left right)
    else .ok (left, pos)
termination_by structural n _ _ _ => n

/-- `Parser.parse_relational`. -/
def parse_relational : Nat → List Token → Nat → Except ParseErr (Expr × Nat)
  | 0, _, _ => .error fuel_err
  | fuel + 1, tokens, pos =>
    match parse_additive fuel tokens pos with
    | .error e => .error e
    | .ok (left, pos1) => parse_relational_rest fuel tokens pos1 left
termination_by structural n _ _ => n

/-- The `('<'|'>'|'<='|'>=')` loop of `parse_relational`. -/
def parse_relational_rest : Nat → List Token → Nat → Expr → Except ParseErr (Expr × Nat)
  | 0, _, _, _ => .error fuel_err
  | fuel + 1, tokens, pos, left =>
    let t := peek tokens pos
    if t.type = .OP ∧ (t.value = "<" ∨ t.value = ">" ∨ t.value = "<=" ∨ t.value = ">=") then
      match consume tokens pos (some .OP) none with
      | (.error e, _) => .error e
      | (.ok op, pos1) =>
        match parse_additive fuel tokens pos1 with
        | .error e => .error e
        | .ok (right, pos2) =>
          parse_relational_rest fuel tokens pos2 (.BinaryOp op.value left right)
    else .ok (left, pos)
termination_by structural n _ _ _ => n

/-- `Parser.parse_additive`. -/
def parse_additive : Nat → List Token → Nat → Except ParseErr (Expr × Nat)
  | 0, _, _ => .error fuel_err
  | fuel + 1, tokens, pos =>
    match parse_term fuel tokens pos with
    | .error e => .error e
    | .ok (left, pos1) => parse_additive_rest fuel tokens pos1 left
termination_by structural n _ _ => n

/-- The `('+'|'-')` loop of `parse_additive`. -/
def parse_additive_rest : Nat → List Token → Nat → Expr → Except ParseErr (Expr × Nat)
  | 0, _, _, _ => .error fuel_err
  | fuel + 1, tokens, pos, left =>
    let t := peek tokens pos
    if t.type = .OP ∧ (t.value = "+" ∨ t.value = "-") then
      match consume tokens pos (some .OP) none with
      | (.error e, _) => .error e
      | (.ok op, pos1) =>
        match parse_term fuel tokens pos1 with
        | .error e => .error e
        | .ok (right, pos2) =>
          parse_additive_rest fuel tokens pos2 (.BinaryOp op.value left right)
    else .ok (left, pos)
termination_by structural n _ _ _ => n

/-- `Parser.parse_term`. -/
def parse_term : Nat → List Token → Nat → Except ParseErr (Expr × Nat)
  | 0, _, _ => .error fuel_err
  | fuel + 1, tokens, pos =>
    match parse_factor fuel tokens pos with
    | .error e => .error e
    | .ok (left, pos1) => parse_term_rest fuel tokens pos1 left
termination_by structural n _ _ => n

/-- The `('*'|'/')` loop of `parse_term`. -/
def parse_term_rest : Nat → List Token → Nat → Expr → Except ParseErr (Expr × Nat)
  | 0, _, _, _ => .error fuel_err
  | fuel + 1, tokens, pos, left =>
    let t := peek tokens pos
    if t.type = .OP ∧ (t.value = "*" ∨ t.value = "/") then
      match consume tokens pos (some .OP) none with
      | (.error e, _) => .error e
      | (.ok op, pos1) =>
        match parse_factor fuel tokens pos1 with
        | .error e => .error e
        | .ok (right, pos2) =>
          parse_term_rest fuel tokens pos2 (.BinaryOp op.value left right)
    else .ok (left, pos)
termination_by structural n _ _ _ => n

/-- `Parser.parse_factor`: `NUMBER | IDENT | '(' expr ')'`. -/
def parse_factor : Nat → List Token → Nat → Except ParseErr (Expr × Nat)
  | 0, _, _ => .error fuel_err
  | fuel + 1, tokens, pos =>
    let tok := peek tokens pos
    if tok.type = .NUMBER then
      match consume tokens pos (some .NUMBER) none with
      | (.error e, _) => .error e
      | (.ok _, pos1) => .ok (.Number (natOfDigits tok.value), pos1)
    else if tok.type = .IDENT then
      match consume tokens pos (some .IDENT) none with
      | (.error e, _) => .error e
      | (.ok _, pos1) => .ok (.Ident tok.value, pos1)
    else if tok.type = .LPAREN then
      match consume tokens pos (some .LPAREN) none with
      | (.error e, _) => .error e
      | (.ok _, pos1) =>
        match parse_expr fuel tokens pos1 with
        | .error e => .error e
        | .ok (e, pos2) =>
          if (peek tokens pos2).type ≠ .RPAREN then
            .error ⟨"Missing closing \x27)\x27", some (peek tokens pos2)⟩
          else
            match consume tokens pos2 (some .RPAREN) none with
            | (.error er, _) => .error er
            | (.ok _, pos3) => .ok (e, pos3)
    else .error ⟨"Unexpected token in factor", some tok⟩
termination_by structural n _ _ => n

end

/-- `Parser.parse_program`: the top-level statement list, with no check that
the whole input was consumed. -/
def parse_program (fuel : Nat) (tokens : List Token) (pos : Nat) :
    Except ParseErr (Program × Nat) :=
  match parse_stmt_list fuel tokens pos with
  | .error e => .error e
  | .ok (body, p) => .ok (⟨body⟩, p)

/-- Recursion budget used by `parse_tokens`: ample for the call depth the
Python parser can reach on the given input. -/
def parse_fuel (tokens : List Token) : Nat := 50 * tokens.length + 50

/-- `parse_tokens(tokens)`: fail on the first lexical `ERROR` token if any,
else append the `EOF` sentinel and run the parser from position 0. -/
def parse_tokens (tokens : List Token) : Except ParseErr Program :=
  match tokens.filter (fun t => t.type == .ERROR) with
  | e :: _ => .error ⟨"Lexical errors present", some e⟩
  | [] =>
    let toks := tokens ++ [eof_token]
    match parse_program (parse_fuel toks) toks 0 with
    | .error e => .error e
    | .ok (prog, _) => .ok prog

/-! ## Lexer lemmas: the scan is total and consumes the whole source -/

/-- If some entry of the alternation list carries a match, `firstMatch`
returns a match. -/
theorem firstMatch_isSome_of_mem (l : List (TokKind × Option (List Char)))
    (k : TokKind) (v : List Char) (h : (k, some v) ∈ l) :
    (firstMatch l).isSome = true := by
  induction l with
  | nil => cases h
  | cons p rest ih =>
    obtain ⟨k', o⟩ := p
    cases o with
    | some w => simp [firstMatch]
    | none =>
      rw [List.mem_cons] at h
      rcases h with h | h
      · simp at h
      · simpa [firstMatch] using ih h

/-- Any property shared by every entry's possible match holds of the
`firstMatch` result. -/
theorem firstMatch_pred (P : List Char → Prop)
    (l : List (TokKind × Option (List Char)))
    (hall : ∀ p ∈ l, ∀ w, p.2 = some w → P w)
    (k : TokKind) (v : List Char) (h : firstMatch l = some (k, v)) : P v := by
  induction l with
  | nil => simp [firstMatch] at h
  | cons p rest ih =>
    obtain ⟨k', o⟩ := p
    cases o with
    | some w =>
      simp only [firstMatch, Option.some.injEq, Prod.mk.injEq] at h
      obtain ⟨hk, hv⟩ := h
      exact hv ▸ hall (k', some w) (by simp) w rfl
    | none =>
      rw [firstMatch] at h
      exact ih (fun q hq => hall q (List.mem_cons_of_mem _ hq)) h

theorem ne_nil_of_some_cons {c : Char} {cs w : List Char}
    (h : some (c :: cs) = some w) : w ≠ [] := by
  injection h with h
  subst h
  simp

theorem matchComment_ne_nil {s w : List Char} (h : matchComment s = some w) : w ≠ [] := by
  match s with
  | [] => simp [matchComment] at h
  | [c] => simp [matchComment] at h
  | c1 :: c2 :: rest =>
    rw [matchComment] at h
    split at h
    · exact ne_nil_of_some_cons h
    · exact Option.noConfusion h

theorem matchChar_ne_nil {a : Char} {s w : List Char} (h : matchChar a s = some w) :
    w ≠ [] := by
  match s with
  | [] => simp [matchChar] at h
  | c :: rest =>
    rw [matchChar] at h
    split at h
    · exact ne_nil_of_some_cons h
    · exact Option.noConfusion h

theorem matchWhitespace_ne_nil {s w : List Char} (h : matchWhitespace s = some w) :
    w ≠ [] := by
  match s with
  | [] => simp [matchWhitespace] at h
  | c :: rest =>
    rw [matchWhitespace] at h
    split at h
    · rename_i hc
      rw [List.takeWhile_cons, if_pos hc] at h
      exact ne_nil_of_some_cons h
    · exact Option.noConfusion h

theorem matchPair_ne_nil {a b : Char} {s w : List Char} (h : matchPair a b s = some w) :
    w ≠ [] := by
  match s with
  | [] => simp [matchPair] at h
  | [c] => simp [matchPair] at h
  | c1 :: c2 :: rest =>
    rw [matchPair] at h
    split at h
    · exact ne_nil_of_some_cons h
    · exact Option.noConfusion h

theorem matchOP_ne_nil {s w : List Char} (h : matchOP s = some w) : w ≠ [] := by
  match s with
  | [] => simp [matchOP] at h
  | [c] =>
    rw [matchOP] at h
    split at h
    · exact ne_nil_of_some_cons h
    · exact Option.noConfusion h
  | c1 :: c2 :: rest =>
    rw [matchOP] at h
    split at h
    · exact ne_nil_of_some_cons h
    · split at h
      · exact ne_nil_of_some_cons h
      · exact Option.noConfusion h

theorem matchKeyword_ne_nil {prev : Option Char} {s w : List Char}
    (h : matchKeyword prev s = some w) : w ≠ [] := by
  rw [matchKeyword] at h
  split at h
  · have hmem := List.mem_of_find?_eq_some h
    simp [keywords] at hmem
    rcases hmem with rfl | rfl | rfl | rfl | rfl | rfl <;> simp
  · exact Option.noConfusion h

theorem matchNumber_ne_nil {prev : Option Char} {s w : List Char}
    (h : matchNumber prev s = some w) : w ≠ [] := by
  rw [matchNumber] at h
  split at h
  · split at h
    · exact Option.noConfusion h
    · split at h
      · rename_i hne _
        injection h with h
        subst h
        simpa [List.isEmpty_iff] using hne
      · exact Option.noConfusion h
  · exact Option.noConfusion h

theorem matchIdent_ne_nil {s w : List Char} (h : matchIdent s = some w) : w ≠ [] := by
  match s with
  | [] => simp [matchIdent] at h
  | c :: rest =>
    rw [matchIdent] at h
    split at h
    · exact ne_nil_of_some_cons h
    · exact Option.noConfusion h

theorem matchUnknown_ne_nil {s w : List Char} (h : matchUnknown s = some w) : w ≠ [] := by
  match s with
  | [] => simp [matchUnknown] at h
  | c :: rest =>
    rw [matchUnknown] at h
    split at h
    · exact Option.noConfusion h
    · exact ne_nil_of_some_cons h

/-- Every successful regex match consumes at least one character. -/
theorem matchAt_some_ne_nil (prev : Option Char) (s : List Char) (k : TokKind)
    (v : List Char) (h : matchAt prev s = some (k, v)) : v ≠ [] := by
  refine firstMatch_pred (fun w => w ≠ []) (TOKEN_SPECS prev s) ?_ k v h
  intro p hp w hw
  simp only [TOKEN_SPECS, List.mem_cons, List.not_mem_nil, or_false] at hp
  rcases hp with rfl | rfl | rfl | rfl | rfl | rfl | rfl | rfl | rfl | rfl | rfl | rfl | rfl | rfl
  · exact matchComment_ne_nil hw
  · exact matchChar_ne_nil hw
  · exact matchWhitespace_ne_nil hw
  · exact matchPair_ne_nil hw
  · exact matchPair_ne_nil hw
  · exact matchOP_ne_nil hw
  · exact matchChar_ne_nil hw
  · exact matchChar_ne_nil hw
  · exact matchChar_ne_nil hw
  · exact matchChar_ne_nil hw
  · exact matchKeyword_ne_nil hw
  · exact matchNumber_ne_nil hw
  · exact matchIdent_ne_nil hw
  · exact matchUnknown_ne_nil hw

/-- At a non-empty suffix the master regex always matches (the `UNKNOWN`
catch-all takes any non-newline character, the `NEWLINE` pattern the rest),
so the Python fallback branch is dead code. -/
theorem matchAt_isSome (prev : Option Char) (c : Char) (rest : List Char) :
    (matchAt prev (c :: rest)).isSome = true := by
  rw [matchAt]
  by_cases hc : c = '\n'
  · subst hc
    have h : matchChar '\n' ('\n' :: rest) = some ['\n'] := by simp [matchChar]
    exact firstMatch_isSome_of_mem _ .NEWLINE ['\n'] (by rw [TOKEN_SPECS, ← h]; simp)
  · have h : matchUnknown (c :: rest) = some [c] := by simp [matchUnknown, hc]
    exact firstMatch_isSome_of_mem _ .UNKNOWN [c] (by rw [TOKEN_SPECS, ← h]; simp)

/-- With fuel at least the length of the unscanned input, the scan loop
consumes the entire input: the leftover component is empty. -/
theorem lexGo_snd_nil (fuel : Nat) : ∀ (prev : Option Char) (s : List Char)
    (line col : Int) (pos : Nat), s.length ≤ fuel →
    (lexGo fuel prev s line col pos).2 = [] := by
  induction fuel with
  | zero =>
    intro prev s line col pos h
    have hs : s = [] := List.eq_nil_of_length_eq_zero (Nat.le_zero.mp h)
    subst hs
    rfl
  | succ f ih =>
    intro prev s line col pos h
    cases s with
    | nil => rfl
    | cons c rest =>
      simp only [lexGo]
      split
    -- Python fallback `if not m`
      · simpa using ih (some c) rest line (col + 1) (pos + 1) (by simpa using h)
      · rename_i kind v hm
        have hv : v ≠ [] := matchAt_some_ne_nil prev (c :: rest) kind v hm
        have hv1 : 1 ≤ v.length := by
          cases v with
          | nil => exact absurd rfl hv
          | cons a as => simp
        have hlen : ((c :: rest).drop v.length).length ≤ f := by
          rw [List.length_drop]
          simp only [List.length_cons] at h ⊢
          omega
        split_ifs <;> simpa using ih _ _ _ _ _ hlen

/-! ## Character-class lemmas -/

theorem digit_ne {d c : Char} (hd : isDigitChar d = true) (hc : isDigitChar c = false) :
    d ≠ c := by
  intro h
  subst h
  rw [hd] at hc
  exact Bool.noConfusion hc

theorem not_alpha_of_digit {c : Char} (h : isDigitChar c = true) : isAlphaChar c = false := by
  simp only [isDigitChar, Bool.and_eq_true, decide_eq_true_eq] at h
  simp only [isAlphaChar, Bool.or_eq_false_iff, Bool.and_eq_false_iff,
    decide_eq_false_iff_not, Nat.not_le]
  omega

theorem not_identStart_of_digit {c : Char} (h : isDigitChar c = true) :
    isIdentStart c = false := by
  have ha := not_alpha_of_digit h
  have hu : c ≠ '_' := digit_ne h (by decide)
  simp [isIdentStart, ha, hu]

theorem isWordChar_of_identStart {c : Char} (h : isIdentStart c = true) :
    isWordChar c = true := by
  simp only [isIdentStart, Bool.or_eq_true] at h
  rcases h with h | h <;> simp [isWordChar, h]

theorem not_space_of_digit {c : Char} (h : isDigitChar c = true) : isSpaceChar c = false := by
  have h1 : c ≠ ' ' := digit_ne h (by decide)
  have h2 : c ≠ '\t' := digit_ne h (by decide)
  have h3 : c ≠ '\r' := digit_ne h (by decide)
  simp [isSpaceChar, h1, h2, h3]

theorem head_beq_false {a d : Char} (h : d ≠ a) : (a == d) = false :=
  beq_eq_false_iff_ne.mpr (Ne.symm h)

theorem drop_takeWhile_length (p : Char → Bool) (l : List Char) :
    l.drop (l.takeWhile p).length = l.dropWhile p := by
  induction l with
  | nil => rfl
  | cons a l ih =>
    by_cases h : p a = true
    · simp [List.takeWhile_cons, List.dropWhile_cons, h, ih]
    · simp [List.takeWhile_cons, List.dropWhile_cons, h]

/-! ## Keyword matching at word boundaries (claim C7) -/

/-- At a scan position starting with a letter, the alternatives before
`KEYWORD` in `TOKEN_SPECS` (comment, newline, whitespace, arrow, assign,
operator, parens, semicolon, bar) all fail, so the regex answer is whatever
the `KEYWORD` pattern gives when it matches. -/
theorem matchAt_alpha_keyword (prev : Option Char) (c : Char) (cs k : List Char)
    (hc : isAlphaChar c = true)
    (hfind : matchKeyword prev (c :: cs) = some k) :
    matchAt prev (c :: cs) = some (.KEYWORD, k) := by
  have hdig : isDigitChar c = false := by
    simp only [isAlphaChar, Bool.or_eq_true, Bool.and_eq_true, decide_eq_true_eq] at hc
    simp only [isDigitChar, Bool.and_eq_false_iff, decide_eq_false_iff_not, Nat.not_le]
    omega
  have halpha_ne : ∀ a : Char, isAlphaChar a = false → c ≠ a := by
    intro a ha h
    subst h
    rw [hc] at ha
    exact Bool.noConfusion ha
  have h1 : c ≠ '/' := halpha_ne '/' (by decide)
  have h2 : c ≠ '\n' := halpha_ne '\n' (by decide)
  have h3 : c ≠ '-' := halpha_ne '-' (by decide)
  have h4 : c ≠ ':' := halpha_ne ':' (by decide)
  have h5 : c ≠ '=' := halpha_ne '=' (by decide)
  have h6 : c ≠ '<' := halpha_ne '<' (by decide)
  have h7 : c ≠ '>' := halpha_ne '>' (by decide)
  have h8 : c ≠ '!' := halpha_ne '!' (by decide)
  have h9 : c ≠ '+' := halpha_ne '+' (by decide)
  have h10 : c ≠ '*' := halpha_ne '*' (by decide)
  have h11 : c ≠ '(' := halpha_ne '(' (by decide)
  have h12 : c ≠ ')' := halpha_ne ')' (by decide)
  have h13 : c ≠ ';' := halpha_ne ';' (by decide)
  have h14 : c ≠ '|' := halpha_ne '|' (by decide)
  have hsp : isSpaceChar c = false := by
    have hs1 : c ≠ ' ' := halpha_ne ' ' (by decide)
    have hs2 : c ≠ '\t' := halpha_ne '\t' (by decide)
    have hs3 : c ≠ '\r' := halpha_ne '\r' (by decide)
    simp [isSpaceChar, hs1, hs2, hs3]
  cases cs with
  | nil =>
    simp [matchAt, TOKEN_SPECS, firstMatch, matchComment, matchChar, matchWhitespace,
      matchPair, matchOP, hsp, op_singles, hfind,
      h1, h2, h3, h4, h5, h6, h7, h8, h9, h10, h11, h12, h13, h14]
  | cons c2 cs2 =>
    simp [matchAt, TOKEN_SPECS, firstMatch, matchComment, matchChar, matchWhitespace,
      matchPair, matchOP, hsp, op_singles, op_doubles, hfind,
      h1, h2, h3, h4, h5, h6, h7, h8, h9, h10, h11, h12, h13, h14]

/-- A keyword with a word boundary on both sides is matched by the
`KEYWORD` pattern, never by `IDENT`. -/
theorem matchAt_keyword (prev : Option Char) (kw rest : List Char)
    (hkw : kw ∈ keywords) (hb : boundary_before prev = true)
    (ha : boundary_after (kw ++ rest) kw.length = true) :
    matchAt prev (kw ++ rest) = some (.KEYWORD, kw) := by
  simp only [keywords, List.mem_cons, List.not_mem_nil, or_false] at hkw
  rcases hkw with rfl | rfl | rfl | rfl | rfl | rfl <;>
    exact matchAt_alpha_keyword prev _ _ _ (by decide)
      (by simp_all [matchKeyword, keywords, starts_with, List.find?])

/-! ## A digit run followed by a letter blocks NUMBER and IDENT (claim C10) -/

/-- Head test used to describe "the maximal digit run is immediately
followed by an identifier-start character". -/
def afterRunStartsIdent : List Char → Bool
  | c :: _ => isIdentStart c
  | [] => false

/-- A digit run immediately followed by a letter or underscore. -/
def identStartAfterDigits (s : List Char) : Bool :=
  afterRunStartsIdent (s.dropWhile isDigitChar)

theorem matchKeyword_none_of_digit (prev : Option Char) {d : Char} (rest : List Char)
    (hd : isDigitChar d = true) : matchKeyword prev (d :: rest) = none := by
  have h1 := head_beq_false (digit_ne hd (show isDigitChar 'i' = false by decide))
  have h2 := head_beq_false (digit_ne hd (show isDigitChar 't' = false by decide))
  have h3 := head_beq_false (digit_ne hd (show isDigitChar 'e' = false by decide))
  have h4 := head_beq_false (digit_ne hd (show isDigitChar 'f' = false by decide))
  have h5 := head_beq_false (digit_ne hd (show isDigitChar 'd' = false by decide))
  have h6 := head_beq_false (digit_ne hd (show isDigitChar 'o' = false by decide))
  rw [matchKeyword]
  split
  · simp [keywords, List.find?, starts_with, h1, h2, h3, h4, h5, h6]
  · rfl

theorem matchNumber_none_of_blocked (prev : Option Char) (s : List Char)
    (hb : identStartAfterDigits s = true) : matchNumber prev s = none := by
  rw [matchNumber]
  split
  · split
    · rfl
    · have hdrop := drop_takeWhile_length isDigitChar s
      rw [identStartAfterDigits] at hb
      cases hdw : s.dropWhile isDigitChar with
      | nil =>
        rw [hdw] at hb
        exact absurd hb (by simp [afterRunStartsIdent])
      | cons c tl =>
        rw [hdw] at hb
        have hw : isWordChar c = true := by
          simp only [afterRunStartsIdent] at hb
          exact isWordChar_of_identStart hb
        have hba : boundary_after s (s.takeWhile isDigitChar).length = false := by
          rw [boundary_after, hdrop, hdw]
          simp [hw]
        rw [hba]
        simp
  · rfl

/-- At a scan position whose maximal digit run is immediately followed by a
letter or underscore, every pattern except the `UNKNOWN` catch-all fails
(`NUMBER` by its trailing `\b`, `IDENT` because it cannot start at a digit),
so one single-character error token is produced, whatever precedes. -/
theorem matchAt_digit_blocked (prev : Option Char) (d : Char) (rest : List Char)
    (hd : isDigitChar d = true) (hb : identStartAfterDigits (d :: rest) = true) :
    matchAt prev (d :: rest) = some (.UNKNOWN, [d]) := by
  have h1 : d ≠ '/' := digit_ne hd (by decide)
  have h2 : d ≠ '\n' := digit_ne hd (by decide)
  have h3 : d ≠ '-' := digit_ne hd (by decide)
  have h4 : d ≠ ':' := digit_ne hd (by decide)
  have h5 : d ≠ '=' := digit_ne hd (by decide)
  have h6 : d ≠ '<' := digit_ne hd (by decide)
  have h7 : d ≠ '>' := digit_ne hd (by decide)
  have h8 : d ≠ '!' := digit_ne hd (by decide)
  have h9 : d ≠ '+' := digit_ne hd (by decide)
  have h10 : d ≠ '*' := digit_ne hd (by decide)
  have h11 : d ≠ '(' := digit_ne hd (by decide)
  have h12 : d ≠ ')' := digit_ne hd (by decide)
  have h13 : d ≠ ';' := digit_ne hd (by decide)
  have h14 : d ≠ '|' := digit_ne hd (by decide)
  have hsp := not_space_of_digit hd
  have hkw := matchKeyword_none_of_digit prev rest hd
  have hnum := matchNumber_none_of_blocked prev (d :: rest) hb
  have hid : matchIdent (d :: rest) = none := by
    rw [matchIdent]
    simp [not_identStart_of_digit hd]
  cases rest with
  | nil =>
    simp [matchAt, TOKEN_SPECS, firstMatch, matchComment, matchChar, matchWhitespace,
      matchPair, matchOP, matchUnknown, hkw, hnum, hid, hsp, op_singles,
      h1, h2, h3, h4, h5, h6, h7, h8, h9, h10, h11, h12, h13, h14]
  | cons c2 rest2 =>
    simp [matchAt, TOKEN_SPECS, firstMatch, matchComment, matchChar, matchWhitespace,
      matchPair, matchOP, matchUnknown, hkw, hnum, hid, hsp, op_singles, op_doubles,
      h1, h2, h3, h4, h5, h6, h7, h8, h9, h10, h11, h12, h13, h14]

/-- C1: for every source string, lexing terminates without failing: the
master regex matches at every position (unrecognized characters fall to the
`UNKNOWN` catch-all and are emitted as `ERROR` tokens, as `lex "@"` shows),
and the scan always reaches the end of the input, the concatenated consumed
spans (including skipped whitespace, newlines and comments) covering the
whole source: the unconsumed remainder is always empty. -/
theorem c1_lex_total_coverage :
    (∀ code : String, (lex_scan code).2 = []) ∧
    (∀ (prev : Option Char) (c : Char) (rest : List Char),
        (matchAt prev (c :: rest)).isSome = true) ∧
    lex "@" = [{ type := .ERROR, value := "@", line := 1, col := 1, index := 0 }] := by
  refine ⟨?_, matchAt_isSome, by decide⟩
  intro code
  exact lexGo_snd_nil code.data.length none code.data 1 1 0 (Nat.le_refl _)

/-- C7: keywords are matched whole-word only: `"ifx := 1"` lexes `ifx` as a
single `IDENT` token, while a keyword with a word boundary on both sides is
matched by the `KEYWORD` pattern (never `IDENT`), and each of the six
keywords on its own lexes to exactly one `KEYWORD` token. -/
theorem c7_keywords_whole_word :
    lex "ifx := 1" = [⟨.IDENT, "ifx", 1, 1, 0⟩, ⟨.ASSIGN, ":=", 1, 5, 4⟩,
                      ⟨.NUMBER, "1", 1, 8, 7⟩] ∧
    (∀ (prev : Option Char) (kw rest : List Char), kw ∈ keywords →
        boundary_before prev = true → boundary_after (kw ++ rest) kw.length = true →
        matchAt prev (kw ++ rest) = some (.KEYWORD, kw)) ∧
    lex "if" = [⟨.KEYWORD, "if", 1, 1, 0⟩] ∧
    lex "then" = [⟨.KEYWORD, "then", 1, 1, 0⟩] ∧
    lex "else" = [⟨.KEYWORD, "else", 1, 1, 0⟩] ∧
    lex "fi" = [⟨.KEYWORD, "fi", 1, 1, 0⟩] ∧
    lex "do" = [⟨.KEYWORD, "do", 1, 1, 0⟩] ∧
    lex "od" = [⟨.KEYWORD, "od", 1, 1, 0⟩] :=
  ⟨by decide, matchAt_keyword, by decide, by decide, by decide, by decide,
   by decide, by decide⟩

/-- Witness for C7: the whole-word clause applied to the keyword `do`
followed by a non-word character. -/
theorem c7_witness :
    matchAt none (['d', 'o'] ++ [' ']) = some (.KEYWORD, ['d', 'o']) :=
  c7_keywords_whole_word.2.1 none ['d', 'o'] [' '] (by decide) (by decide) (by decide)

/-- C10: a digit run immediately followed by a letter or underscore cannot
be matched as a `NUMBER` (its trailing `\b` fails) nor as an `IDENT`, so the
scan emits the digit as a single-character `UNKNOWN`/`ERROR` token; in
particular `"123abc"` lexes as three one-digit `ERROR` tokens followed by
one `IDENT`, and parsing such a source fails with a lexical error. -/
theorem c10_digit_run_blocked :
    (∀ (prev : Option Char) (d : Char) (rest : List Char),
        isDigitChar d = true → identStartAfterDigits (d :: rest) = true →
        matchAt prev (d :: rest) = some (.UNKNOWN, [d])) ∧
    lex "123abc" = [⟨.ERROR, "1", 1, 1, 0⟩, ⟨.ERROR, "2", 1, 2, 1⟩,
                    ⟨.ERROR, "3", 1, 3, 2⟩, ⟨.IDENT, "abc", 1, 4, 3⟩] ∧
    parse_tokens (lex "123abc") =
      .error ⟨"Lexical errors present", some ⟨.ERROR, "1", 1, 1, 0⟩⟩ :=
  ⟨matchAt_digit_blocked, by decide, rfl⟩

/-- Witness for C10: the blocking clause applied at the head of `123abc`. -/
theorem c10_witness :
    matchAt none ('1' :: ['2', '3', 'a', 'b', 'c']) = some (.UNKNOWN, ['1']) :=
  c10_digit_run_blocked.1 none '1' ['2', '3', 'a', 'b', 'c'] (by decide) (by decide)

/-! ## Lexical-error preflight (claim C2) -/

theorem find?_eq_head_filter {α : Type} (p : α → Bool) (l : List α) :
    l.find? p = (l.filter p).head? := by
  induction l with
  | nil => rfl
  | cons a l ih =>
    by_cases h : p a = true
    · rw [List.find?_cons_of_pos _ h, List.filter_cons_of_pos h, List.head?_cons]
    · rw [List.find?_cons_of_neg _ h, List.filter_cons_of_neg h, ih]

/-- C2: if the token sequence contains an `ERROR` token, `parse_tokens`
fails immediately — before any grammar-driven parsing — with a
`LexicalError` (`"Lexical errors present"`) carrying the first such token in
sequence order; in particular `"x := 1 @ 2"` fails with that error carrying
the `@` token at line 1, column 8. -/
theorem c2_lexical_error_priority :
    (∀ (tokens : List Token) (t : Token),
        tokens.find? (fun tk => tk.type == .ERROR) = some t →
        parse_tokens tokens = .error ⟨"Lexical errors present", some t⟩) ∧
    parse_tokens (lex "x := 1 @ 2") =
      .error ⟨"Lexical errors present", some ⟨.ERROR, "@", 1, 8, 7⟩⟩ := by
  refine ⟨?_, rfl⟩
  intro tokens t h
  rw [find?_eq_head_filter] at h
  rw [parse_tokens]
  cases hf : tokens.filter (fun tk => tk.type == .ERROR) with
  | nil => rw [hf] at h; exact Option.noConfusion h
  | cons e tl =>
    rw [hf] at h
    injection h with h
    subst h
    rfl

/-- Witness for C2: the preflight clause applied to the tokens of
`"x := 1 @ 2"`. -/
theorem c2_witness :
    parse_tokens (lex "x := 1 @ 2") =
      .error ⟨"Lexical errors present", some ⟨.ERROR, "@", 1, 8, 7⟩⟩ :=
  c2_lexical_error_priority.1 (lex "x := 1 @ 2") ⟨.ERROR, "@", 1, 8, 7⟩ (by decide)

/-! ## Statement-list termination (claim C3) -/

/-- The loop-exit condition of `parse_stmt_list`, read off its three
`break`s: end of input, closing keyword `fi`/`od`, or a token whose type is
neither `KEYWORD` nor `IDENT`. -/
def stmt_list_stops (tok : Token) : Bool :=
  tok.type == .EOF ||
  (tok.type == .KEYWORD && (tok.value == "fi" || tok.value == "od")) ||
  (tok.type != .KEYWORD && tok.type != .IDENT)

theorem stmt_list_stops_iff (tok : Token) :
    stmt_list_stops tok = true ↔
      (tok.type = .EOF ∨
       (tok.type = .KEYWORD ∧ (tok.value = "fi" ∨ tok.value = "od")) ∨
       (tok.type ≠ .KEYWORD ∧ tok.type ≠ .IDENT)) := by
  simp [stmt_list_stops, or_assoc]

/-- C3 counterexample: the keyword `then` is not a valid statement starter,
yet `parse_stmt_list` does not terminate the list there — it invokes
statement parsing, which fails, so the parse of `"then"` is a syntax error
rather than an empty program, contrary to the claim as stated. -/
theorem c3_counterexample :
    parse_tokens (lex "then") =
      .error ⟨"Unexpected token in statement: KEYWORD \x27then\x27",
              some ⟨.KEYWORD, "then", 1, 1, 0⟩⟩ ∧
    parse_stmt_list 5 (lex "then" ++ [eof_token]) 0 ≠ .ok ([], 0) := by
  refine ⟨rfl, ?_⟩
  have he : parse_stmt_list 5 (lex "then" ++ [eof_token]) 0 =
      .error ⟨"Unexpected token in statement: KEYWORD \x27then\x27",
              some ⟨.KEYWORD, "then", 1, 1, 0⟩⟩ := rfl
  rw [he]
  intro h
  exact Except.noConfusion h

/-- C3 (amended): given at least one unit of recursion budget,
`parse_stmt_list` ends without consuming further input — returning the empty
statement list at the same position — exactly when the next token is
end-of-input, the keyword `fi`, the keyword `od`, or a token whose type is
neither `KEYWORD` nor `IDENT`.  (A `KEYWORD` token other than `if`/`do` that
is not `fi`/`od` — i.e. `then` or `else` — is not a statement starter but is
nevertheless passed to statement parsing, which fails.) -/
theorem c3_stmt_list_stop_condition (fuel : Nat) (tokens : List Token) (pos : Nat)
    (hf : 1 ≤ fuel) :
    parse_stmt_list fuel tokens pos = .ok ([], pos) ↔
      stmt_list_stops (peek tokens pos) = true := by
  obtain ⟨f, rfl⟩ : ∃ f, fuel = f + 1 := ⟨fuel - 1, by omega⟩
  rw [stmt_list_stops_iff]
  constructor
  · intro h
    simp only [parse_stmt_list] at h
    split_ifs at h with h1 h2 h3
    · exact Or.inl h1
    · exact Or.inr (Or.inl h2)
    · exact Or.inr (Or.inr h3)
    · exfalso
      cases hs : parse_stmt f tokens pos with
      | error e => rw [hs] at h; simp at h
      | ok sp =>
        obtain ⟨stmt, pos1⟩ := sp
        rw [hs] at h
        simp only [] at h
        cases hsm : skip_optional_semi tokens pos1 with
        | error e => rw [hsm] at h; simp at h
        | ok pos2 =>
          rw [hsm] at h
          simp only [] at h
          cases hr : parse_stmt_list f tokens pos2 with
          | error e => rw [hr] at h; simp at h
          | ok rp =>
            obtain ⟨rest, pos3⟩ := rp
            rw [hr] at h
            simp at h
  · intro h
    simp only [parse_stmt_list]
    split_ifs with h1 h2 h3
    · rfl
    · rfl
    · rfl
    · tauto

/-- Witness for C3: on the empty token list the next token is the `EOF`
sentinel, so the list ends immediately. -/
theorem c3_witness : parse_stmt_list 1 [] 0 = .ok ([], 0) :=
  (c3_stmt_list_stop_condition 1 [] 0 (by decide)).mpr (by decide)

/-! ## Expression claims (C4, C5) -/

/-- C4: multiplicative operators bind tighter than additive ones, and the
tiers nest as equality < relational < additive < multiplicative:
`"x := 1 + 2 * 3"` parses to `BinaryOp(+, 1, BinaryOp(*, 2, 3))`, an
equality operator takes whole relational expressions as operands, and a
relational operator takes whole additive expressions as operands. -/
theorem c4_precedence :
    parse_tokens (lex "x := 1 + 2 * 3") =
      .ok ⟨[.Assign "x" (.BinaryOp "+" (.Number 1)
              (.BinaryOp "*" (.Number 2) (.Number 3)))]⟩ ∧
    parse_tokens (lex "x := 1 == 2 < 3") =
      .ok ⟨[.Assign "x" (.BinaryOp "==" (.Number 1)
              (.BinaryOp "<" (.Number 2) (.Number 3)))]⟩ ∧
    parse_tokens (lex "x := 1 < 2 + 3") =
      .ok ⟨[.Assign "x" (.BinaryOp "<" (.Number 1)
              (.BinaryOp "+" (.Number 2) (.Number 3)))]⟩ :=
  ⟨rfl, rfl, rfl⟩

/-- C5: every binary tier is left-associative: `"x := 1 - 2 - 3"` parses to
`BinaryOp(-, BinaryOp(-, 1, 2), 3)`, and repeated operators of the equality,
relational and multiplicative tiers likewise fold into left-nested trees. -/
theorem c5_left_assoc :
    parse_tokens (lex "x := 1 - 2 - 3") =
      .ok ⟨[.Assign "x" (.BinaryOp "-"
              (.BinaryOp "-" (.Number 1) (.Number 2)) (.Number 3))]⟩ ∧
    parse_tokens (lex "x := 1 == 2 != 3") =
      .ok ⟨[.Assign "x" (.BinaryOp "!="
              (.BinaryOp "==" (.Number 1) (.Number 2)) (.Number 3))]⟩ ∧
    parse_tokens (lex "x := 1 < 2 < 3") =
      .ok ⟨[.Assign "x" (.BinaryOp "<"
              (.BinaryOp "<" (.Number 1) (.Number 2)) (.Number 3))]⟩ ∧
    parse_tokens (lex "x := 1 * 2 / 3") =
      .ok ⟨[.Assign "x" (.BinaryOp "/"
              (.BinaryOp "*" (.Number 1) (.Number 2)) (.Number 3))]⟩ :=
  ⟨rfl, rfl, rfl, rfl⟩

/-! ## The cursor contract of `consume` (claim C8) -/

/-- The `expected_type` test of `consume` as a predicate: a kind was given
and the current token's kind differs. -/
def type_mismatch (expected_type : Option TokKind) (tok : Token) : Bool :=
  match expected_type with
  | some et => tok.type != et
  | none => false

/-- The `expected_value` test of `consume` as a predicate: a text was given,
is non-empty (a falsy empty string disables the check in the source), and
the current token's text differs. -/
def value_mismatch (expected_value : Option String) (tok : Token) : Bool :=
  match expected_value with
  | some v => v != "" && tok.value != v
  | none => false

/-- C8 (amended): for every cursor state, if `consume` is called with an
expected kind that does not match the current token, or a *non-empty*
expected text that does not match (an empty expected text is falsy in the
source and is treated as absent), it fails with a `SyntaxError` carrying the
offending token and leaves the read position unchanged; if neither check
fires, it returns the current token and advances the position by exactly
one. -/
theorem c8_consume_contract (tokens : List Token) (pos : Nat)
    (expected_type : Option TokKind) (expected_value : Option String) :
    (type_mismatch expected_type (peek tokens pos) = true →
      ∃ msg, consume tokens pos expected_type expected_value =
        (.error ⟨msg, some (peek tokens pos)⟩, pos)) ∧
    (type_mismatch expected_type (peek tokens pos) = false →
      value_mismatch expected_value (peek tokens pos) = true →
      ∃ msg, consume tokens pos expected_type expected_value =
        (.error ⟨msg, some (peek tokens pos)⟩, pos)) ∧
    (type_mismatch expected_type (peek tokens pos) = false →
      value_mismatch expected_value (peek tokens pos) = false →
      consume tokens pos expected_type expected_value =
        (.ok (peek tokens pos), pos + 1)) := by
  refine ⟨?_, ?_, ?_⟩
  · intro h
    cases expected_type with
    | none => simp [type_mismatch] at h
    | some et =>
      simp only [type_mismatch, bne_iff_ne] at h
      exact ⟨"Expected token type " ++ kindName et ++ " but found " ++
             kindName (peek tokens pos).type ++ " (\x27" ++ (peek tokens pos).value ++ "\x27)",
             by simp [consume, h]⟩
  · intro h1 h2
    cases expected_value with
    | none => simp [value_mismatch] at h2
    | some v =>
      simp only [value_mismatch, Bool.and_eq_true, bne_iff_ne] at h2
      cases expected_type with
      | none =>
        exact ⟨"Expected token value " ++ v ++ " but found " ++ (peek tokens pos).value,
               by simp [consume, consume_check_value, h2]⟩
      | some et =>
        simp only [type_mismatch, bne_eq_false_iff_eq] at h1
        exact ⟨"Expected token value " ++ v ++ " but found " ++ (peek tokens pos).value,
               by simp [consume, consume_check_value, h1, h2]⟩
  · intro h1 h2
    cases expected_type with
    | none =>
      cases expected_value with
      | none => simp [consume, consume_check_value]
      | some v =>
        simp only [value_mismatch, Bool.and_eq_false_iff, bne_eq_false_iff_eq] at h2
        rcases h2 with h2 | h2 <;> simp [consume, consume_check_value, h2]
    | some et =>
      simp only [type_mismatch, bne_eq_false_iff_eq] at h1
      cases expected_value with
      | none => simp [consume, consume_check_value, h1]
      | some v =>
        simp only [value_mismatch, Bool.and_eq_false_iff, bne_eq_false_iff_eq] at h2
        rcases h2 with h2 | h2 <;> simp [consume, consume_check_value, h1, h2]

/-- C8 counterexample: `consume` called with the empty string as expected
text on a token whose text is `"x"`: the expected text is given and does not
match, yet the call succeeds and advances the position, because the source's
`if expected_value and ...` guard treats the empty (falsy) string as
absent. -/
theorem c8_counterexample :
    (peek [⟨.IDENT, "x", 1, 1, 0⟩] 0).value ≠ "" ∧
    consume [⟨.IDENT, "x", 1, 1, 0⟩] 0 none (some "") =
      (.ok ⟨.IDENT, "x", 1, 1, 0⟩, 1) :=
  ⟨by decide, rfl⟩

/-- Witness for C8: a matching `consume` returns the current token and
advances by one. -/
theorem c8_witness :
    consume [⟨.IDENT, "x", 1, 1, 0⟩] 0 (some .IDENT) (some "x") =
      (.ok (peek [⟨.IDENT, "x", 1, 1, 0⟩] 0), 0 + 1) :=
  (c8_consume_contract [⟨.IDENT, "x", 1, 1, 0⟩] 0 (some .IDENT) (some "x")).2.2 rfl rfl

/-! ## No end-of-input check after the top-level statement list (claim C9) -/

/-- C9: `parse_program` runs the top-level statement list and never checks
that the whole input was consumed: whenever the statement list parses
successfully, at whatever final position, `parse_tokens` succeeds with the
`Program` built from it, silently ignoring all remaining tokens; e.g.
`"x := 1 ) 2"` parses without error to a one-statement program. -/
theorem c9_trailing_tokens_ignored :
    (∀ (tokens : List Token) (b : List Stmt) (p : Nat),
        tokens.filter (fun t => t.type == .ERROR) = [] →
        parse_stmt_list (parse_fuel (tokens ++ [eof_token])) (tokens ++ [eof_token]) 0 =
          .ok (b, p) →
        parse_tokens tokens = .ok ⟨b⟩) ∧
    parse_tokens (lex "x := 1 ) 2") = .ok ⟨[.Assign "x" (.Number 1)]⟩ := by
  refine ⟨?_, rfl⟩
  intro tokens b p hferr hsl
  simp [parse_tokens, parse_program, hferr, hsl]

/-- Witness for C9: the trailing `) 2` of `"x := 1 ) 2"` is ignored. -/
theorem c9_witness :
    parse_tokens (lex "x := 1 ) 2") = .ok ⟨[.Assign "x" (.Number 1)]⟩ :=
  c9_trailing_tokens_ignored.1 (lex "x := 1 ) 2") [.Assign "x" (.Number 1)] 3
    (by decide) rfl

/-! ## The guard invariant (claim C6) -/

/-- Joint well-formedness of all statement- and guard-producing parser
productions: every successful parse yields statements whose `If`/`Do` nodes
all carry at least one guard (a guard list is built as one mandatory guard
followed by the `('|' guard)*` loop).  Proved by induction on the recursion
budget. -/
theorem parse_wf (fuel : Nat) : ∀ (tokens : List Token) (pos : Nat),
    (∀ ss p, parse_stmt_list fuel tokens pos = .ok (ss, p) → stmtsWF ss = true) ∧
    (∀ s p, parse_stmt fuel tokens pos = .ok (s, p) → stmtWF s = true) ∧
    (∀ s p, parse_if fuel tokens pos = .ok (s, p) → stmtWF s = true) ∧
    (∀ s p, parse_do fuel tokens pos = .ok (s, p) → stmtWF s = true) ∧
    (∀ gs p, parse_guard_list fuel tokens pos = .ok (gs, p) →
        guardsWF gs = true ∧ gs ≠ []) ∧
    (∀ gs p, parse_guard_list_rest fuel tokens pos = .ok (gs, p) →
        guardsWF gs = true) ∧
    (∀ g p, parse_guard fuel tokens pos = .ok (g, p) → guardWF g = true) ∧
    (∀ s p, parse_assignment fuel tokens pos = .ok (s, p) → stmtWF s = true) := by
  induction fuel with
  | zero =>
    intro tokens pos
    refine ⟨?_, ?_, ?_, ?_, ?_, ?_, ?_, ?_⟩ <;> intro a b h <;>
      simp [parse_stmt_list, parse_stmt, parse_if, parse_do, parse_guard_list,
        parse_guard_list_rest, parse_guard, parse_assignment] at h
  | succ f ih =>
    intro tokens pos
    refine ⟨?_, ?_, ?_, ?_, ?_, ?_, ?_, ?_⟩
    · -- parse_stmt_list
      intro ss p h
      simp only [parse_stmt_list] at h
      split_ifs at h with h1 h2 h3
      · simp only [Except.ok.injEq, Prod.mk.injEq] at h
        obtain ⟨h4, h5⟩ := h
        subst h4
        rfl
      · simp only [Except.ok.injEq, Prod.mk.injEq] at h
        obtain ⟨h4, h5⟩ := h
        subst h4
        rfl
      · simp only [Except.ok.injEq, Prod.mk.injEq] at h
        obtain ⟨h4, h5⟩ := h
        subst h4
        rfl
      · cases hs : parse_stmt f tokens pos with
        | error e => rw [hs] at h; simp at h
        | ok sp =>
          obtain ⟨stmt, pos1⟩ := sp
          rw [hs] at h
          simp only [] at h
          cases hsm : skip_optional_semi tokens pos1 with
          | error e => rw [hsm] at h; simp at h
          | ok pos2 =>
            rw [hsm] at h
            simp only [] at h
            cases hr : parse_stmt_list f tokens pos2 with
            | error e => rw [hr] at h; simp at h
            | ok rp =>
              obtain ⟨rest, pos3⟩ := rp
              rw [hr] at h
              simp only [Except.ok.injEq, Prod.mk.injEq] at h
              obtain ⟨h4, h5⟩ := h
              subst h4
              have w1 := (ih tokens pos).2.1 stmt pos1 hs
              have w2 := (ih tokens pos2).1 rest pos3 hr
              simp [stmtsWF, w1, w2]
    · -- parse_stmt
      intro s p h
      simp only [parse_stmt] at h
      split_ifs at h with h1 h2 h3
      · exact (ih tokens pos).2.2.1 s p h
      · exact (ih tokens pos).2.2.2.1 s p h
      · exact (ih tokens pos).2.2.2.2.2.2.2 s p h
    · -- parse_if
      intro s p h
      simp only [parse_if] at h
      rcases hc : consume tokens pos (some .KEYWORD) (some "if") with ⟨res, pos1⟩
      rw [hc] at h
      cases res with
      | error e => simp at h
      | ok tk =>
        simp only [] at h
        cases hg : parse_guard_list f tokens pos1 with
        | error e => rw [hg] at h; simp at h
        | ok gp =>
          obtain ⟨guards, pos2⟩ := gp
          rw [hg] at h
          simp only [] at h
          split_ifs at h with hfi
          · rcases hc2 : consume tokens pos2 (some .KEYWORD) (some "fi") with ⟨res2, pos3⟩
            rw [hc2] at h
            cases res2 with
            | error e => simp at h
            | ok tk2 =>
              simp only [Except.ok.injEq, Prod.mk.injEq] at h
              obtain ⟨h4, h5⟩ := h
              subst h4
              obtain ⟨hwf, hne⟩ := (ih tokens pos1).2.2.2.2.1 guards pos2 hg
              cases guards with
              | nil => exact absurd rfl hne
              | cons g gs => simp [stmtWF, List.isEmpty, hwf]
    · -- parse_do
      intro s p h
      simp only [parse_do] at h
      rcases hc : consume tokens pos (some .KEYWORD) (some "do") with ⟨res, pos1⟩
      rw [hc] at h
      cases res with
      | error e => simp at h
      | ok tk =>
        simp only [] at h
        cases hg : parse_guard_list f tokens pos1 with
        | error e => rw [hg] at h; simp at h
        | ok gp =>
          obtain ⟨guards, pos2⟩ := gp
          rw [hg] at h
          simp only [] at h
          split_ifs at h with hod
          · rcases hc2 : consume tokens pos2 (some .KEYWORD) (some "od") with ⟨res2, pos3⟩
            rw [hc2] at h
            cases res2 with
            | error e => simp at h
            | ok tk2 =>
              simp only [Except.ok.injEq, Prod.mk.injEq] at h
              obtain ⟨h4, h5⟩ := h
              subst h4
              obtain ⟨hwf, hne⟩ := (ih tokens pos1).2.2.2.2.1 guards pos2 hg
              cases guards with
              | nil => exact absurd rfl hne
              | cons g gs => simp [stmtWF, List.isEmpty, hwf]
    · -- parse_guard_list
      intro gs p h
      simp only [parse_guard_list] at h
      cases hg : parse_guard f tokens pos with
      | error e => rw [hg] at h; simp at h
      | ok gp =>
        obtain ⟨g, pos1⟩ := gp
        rw [hg] at h
        simp only [] at h
        cases hr : parse_guard_list_rest f tokens pos1 with
        | error e => rw [hr] at h; simp at h
        | ok rp =>
          obtain ⟨gs2, pos2⟩ := rp
          rw [hr] at h
          simp only [Except.ok.injEq, Prod.mk.injEq] at h
          obtain ⟨h4, h5⟩ := h
          subst h4
          have w1 := (ih tokens pos).2.2.2.2.2.2.1 g pos1 hg
          have w2 := (ih tokens pos1).2.2.2.2.2.1 gs2 pos2 hr
          exact ⟨by simp [guardsWF, w1, w2], by simp⟩
    · -- parse_guard_list_rest
      intro gs p h
      simp only [parse_guard_list_rest] at h
      split_ifs at h with hbar
      · rcases hc : consume tokens pos (some .BAR) none with ⟨res, pos1⟩
        rw [hc] at h
        cases res with
        | error e => simp at h
        | ok tk =>
          simp only [] at h
          cases hg : parse_guard f tokens pos1 with
          | error e => rw [hg] at h; simp at h
          | ok gp =>
            obtain ⟨g, pos2⟩ := gp
            rw [hg] at h
            simp only [] at h
            cases hr : parse_guard_list_rest f tokens pos2 with
            | error e => rw [hr] at h; simp at h
            | ok rp =>
              obtain ⟨gs2, pos3⟩ := rp
              rw [hr] at h
              simp only [Except.ok.injEq, Prod.mk.injEq] at h
              obtain ⟨h4, h5⟩ := h
              subst h4
              have w1 := (ih tokens pos1).2.2.2.2.2.2.1 g pos2 hg
              have w2 := (ih tokens pos2).2.2.2.2.2.1 gs2 pos3 hr
              simp [guardsWF, w1, w2]
      · simp only [Except.ok.injEq, Prod.mk.injEq] at h
        obtain ⟨h4, h5⟩ := h
        subst h4
        rfl
    · -- parse_guard
      intro g p h
      simp only [parse_guard] at h
      cases he : parse_expr f tokens pos with
      | error e => rw [he] at h; simp at h
      | ok ep =>
        obtain ⟨cond, pos1⟩ := ep
        rw [he] at h
        simp only [] at h
        split_ifs at h with harr
        · rcases hc : consume tokens pos1 (some .ARROW) none with ⟨res, pos2⟩
          rw [hc] at h
          cases res with
          | error e => simp at h
          | ok tk =>
            simp only [] at h
            cases hb : parse_stmt_list f tokens pos2 with
            | error e => rw [hb] at h; simp at h
            | ok bp =>
              obtain ⟨body, pos3⟩ := bp
              rw [hb] at h
              simp only [Except.ok.injEq, Prod.mk.injEq] at h
              obtain ⟨h4, h5⟩ := h
              subst h4
              have w := (ih tokens pos2).1 body pos3 hb
              simp [guardWF, w]
    · -- parse_assignment
      intro s p h
      simp only [parse_assignment] at h
      rcases hc : consume tokens pos (some .IDENT) none with ⟨res, pos1⟩
      rw [hc] at h
      cases res with
      | error e => simp at h
      | ok ident =>
        simp only [] at h
        split_ifs at h with hassign
        · rcases hc2 : consume tokens pos1 (some .ASSIGN) none with ⟨res2, pos2⟩
          rw [hc2] at h
          cases res2 with
          | error e => simp at h
          | ok tk2 =>
            simp only [] at h
            cases he : parse_expr f tokens pos2 with
            | error e => rw [he] at h; simp at h
            | ok ep =>
              obtain ⟨expr, pos3⟩ := ep
              rw [he] at h
              simp only [Except.ok.injEq, Prod.mk.injEq] at h
              obtain ⟨h4, h5⟩ := h
              subst h4
              rfl

/-- C6: every `If` and every `Do` node in any AST returned by a successful
parse carries at least one guard, and an `if` immediately followed by `fi`
(or `do` by `od`) is a parse error, never a valid node with an empty guard
list. -/
theorem c6_guards_nonempty :
    (∀ (tokens : List Token) (prog : Program),
        parse_tokens tokens = .ok prog → stmtsWF prog.body = true) ∧
    parse_tokens (lex "if fi") =
      .error ⟨"Unexpected token in factor", some ⟨.KEYWORD, "fi", 1, 4, 3⟩⟩ ∧
    parse_tokens (lex "do od") =
      .error ⟨"Unexpected token in factor", some ⟨.KEYWORD, "od", 1, 4, 3⟩⟩ := by
  refine ⟨?_, rfl, rfl⟩
  intro tokens prog h
  rw [parse_tokens] at h
  cases hf : tokens.filter (fun t => t.type == .ERROR) with
  | cons e tl => rw [hf] at h; simp at h
  | nil =>
    rw [hf] at h
    simp only [] at h
    rw [parse_program] at h
    cases hsl : parse_stmt_list (parse_fuel (tokens ++ [eof_token]))
        (tokens ++ [eof_token]) 0 with
    | error e => rw [hsl] at h; simp at h
    | ok bp =>
      obtain ⟨body, p⟩ := bp
      rw [hsl] at h
      simp only [Except.ok.injEq] at h
      subst h
      exact (parse_wf (parse_fuel (tokens ++ [eof_token])) (tokens ++ [eof_token]) 0).1
        body p hsl

/-- Witness for C6: the two-guard program
`"if x > 0 -> y := 1 | x <= 0 -> y := 0 fi"` parses successfully, and the
resulting statements are well-formed (its `If` node has a non-empty guard
list). -/
theorem c6_witness :
    stmtsWF (Program.body ⟨[.If
      [⟨.BinaryOp ">" (.Ident "x") (.Number 0), [.Assign "y" (.Number 1)]⟩,
       ⟨.BinaryOp "<=" (.Ident "x") (.Number 0), [.Assign "y" (.Number 0)]⟩]]⟩) = true :=
  c6_guards_nonempty.1 (lex "if x > 0 -> y := 1 | x <= 0 -> y := 0 fi") _ rfl

end GCL
